import Mathlib

/-!
Verification of `go-conversions` (`src/main.go`), a three-stage pipeline:
`Generate` synthesizes a Go source file of conversion expressions from the
`Primitives` catalog, `Compile` runs `go build` on it and scrapes the
"cannot convert" diagnostics from stderr into a `ConversionFailures` list,
and `Report` prints the 19×19 convertibility matrix.

The embedding below translates each Go function into a Lean function.
Effects are made explicit: `Compile` takes the result of `cmd.Run`
(`Option String`, `none` = nil error, `some msg` = error whose `Error()`
string is `msg`) and the captured stderr text as arguments; `Report`
returns the list of emitted log records instead of writing them;
`Generate` returns the rendered output text.  The Go regexp
`.+ p.(.+) \(.+\) to type (.+)` is embedded as an executable
backtracking matcher with RE2 leftmost-first greedy submatch semantics.
-/

set_option maxRecDepth 100000

namespace GoConversions

/-- `ConversionFailure` marries the two types in a conversion failure as
reported by the go compiler (src/main.go:28-31). -/
structure ConversionFailure where
  From : String
  To : String
deriving DecidableEq, Repr

/-- `ConversionFailures` is a helper type around a `[]ConversionFailure`
(src/main.go:35). -/
abbrev ConversionFailures := List ConversionFailure

/-- The hardcoded catalog of the 19 Go primitive type names, in source
order (src/main.go:43-63). -/
def Primitives : List String :=
  [ "bool", "uint8", "uint16", "uint32", "uint64",
    "int8", "int16", "int32", "int64",
    "float32", "float64", "complex64", "complex128",
    "string", "int", "uint", "uintptr", "byte", "rune" ]

/-- `Contains` reports whether `cfs` contains a `ConversionFailure` whose
`From` equals `f` and whose `To` equals `t` (src/main.go:208-215), as the
Go `for`/`if` loop: scan the list, return `true` on the first element
whose two fields both compare equal, `false` if the scan ends. -/
def ConversionFailures.Contains : ConversionFailures → String → String → Bool
  | [], _, _ => false
  | cf :: rest, f, t =>
    if cf.From == f && cf.To == t then true
    else ConversionFailures.Contains rest f t

/-- The `compatible` marker computed inside `Report`'s inner loop
(src/main.go:193-198): `"✅"` when `cfs` does not contain the pair,
`"❌"` when it does. -/
def marker (cfs : ConversionFailures) (f t : String) : String :=
  if !(cfs.Contains f t) then "✅" else "❌"

/-- One record emitted by `Report` via `logrus.Infof`: either the section
header for an outer primitive (src/main.go:191) or one result line
carrying the from-type, the to-type and the compatible marker
(src/main.go:199). -/
inductive ReportEvent where
  | header (p : String)
  | result (f t m : String)
deriving DecidableEq, Repr

/-- The inner loop of `Report` (src/main.go:192-200): for each inner
primitive, in catalog order, append one result record to the output so
far. -/
def reportInner (cfs : ConversionFailures) (outer : String)
    (acc : List ReportEvent) : List ReportEvent :=
  Primitives.foldl
    (fun a inner => a ++ [ReportEvent.result outer inner (marker cfs outer inner)])
    acc

/-- `Report` (src/main.go:189-204): for each outer primitive in catalog
order, emit the section header and then run the inner loop over the
catalog.  The returned list is the sequence of emitted records. -/
def Report (cfs : ConversionFailures) : List ReportEvent :=
  Primitives.foldl
    (fun a outer => reportInner cfs outer (a ++ [ReportEvent.header outer]))
    []

/-- Go `strings.Contains s pat`: `pat` occurs as a substring of `s`,
i.e. it is a prefix of some suffix. -/
def strContains (s pat : String) : Bool :=
  (List.range (s.toList.length + 1)).any fun i =>
    pat.toList.isPrefixOf (s.toList.drop i)

/-- RE2 `.` metacharacter: any character except newline. -/
def anyc (c : Char) : Bool := c != '\n'

/-- The literal ` p` of the extraction pattern (src/main.go:173). -/
def litP : List Char := [' ', 'p']

/-- The literal ` (` of the extraction pattern. -/
def litParen : List Char := [' ', '(']

/-- The literal `) to type ` of the extraction pattern. -/
def litToType : List Char := [')', ' ', 't', 'o', ' ', 't', 'y', 'p', 'e', ' ']

/-- Trailing `(.+)` of the pattern, anchored at the current position with
nothing after it: the greedy `.+` captures the longest run of
non-newline characters, which must be nonempty. -/
def matchG2 (s : List Char) : Option String :=
  let t := s.takeWhile anyc
  if t.isEmpty then none else some (String.mk t)

/-- `(.+)\) to type (.+)` anchored at the current position (the part of
the pattern after ` (`): the first greedy `.+` captures the longest
nonempty run of non-newline characters after which the literal
`) to type ` and the rest of the pattern still match; tried longest
first, exactly as a backtracking search.  Returns capture group 2. -/
def matchAfterParen (s : List Char) : Option String :=
  ((List.range (s.length + 1)).reverse).findSome? fun i =>
    if 1 ≤ i && (s.take i).all anyc && litToType.isPrefixOf (s.drop i) then
      matchG2 (s.drop (i + litToType.length))
    else none

/-- `(.+) \(.+\) to type (.+)` anchored at the current position (the part
of the pattern after ` p.`): the capture group 1 `.+` is greedy, tried
longest first.  Returns (group 1, group 2). -/
def matchAfterP (s : List Char) : Option (String × String) :=
  ((List.range (s.length + 1)).reverse).findSome? fun i =>
    if 1 ≤ i && (s.take i).all anyc && litParen.isPrefixOf (s.drop i) then
      (matchAfterParen (s.drop (i + litParen.length))).map
        fun g2 => (String.mk (s.take i), g2)
    else none

/-- The whole pattern `.+ p.(.+) \(.+\) to type (.+)` anchored at the
current position: leading greedy `.+` (longest first), literal ` p`, one
arbitrary non-newline character (the unescaped `.` of `p.`), then the
rest of the pattern. -/
def matchAt (s : List Char) : Option (String × String) :=
  ((List.range (s.length + 1)).reverse).findSome? fun i =>
    if 1 ≤ i && (s.take i).all anyc && litP.isPrefixOf (s.drop i) then
      match s.drop (i + litP.length) with
      | [] => none
      | c :: rest => if anyc c then matchAfterP rest else none
    else none

/-- Go `re.FindStringSubmatch line` for
`re := regexp.MustCompile(".+ p.(.+) \\(.+\\) to type (.+)")`
(src/main.go:173-175): the leftmost match (earliest starting position,
scanned left to right), with greedy leftmost-first submatch semantics;
`none` models the `nil` result when the line does not match.  Returns
`(matches[1], matches[2])`. -/
def findStringSubmatch (line : String) : Option (String × String) :=
  let s := line.toList
  (List.range s.length).findSome? fun j => matchAt (s.drop j)

/-- Split a character list at every newline, keeping empty pieces: the
behavior of Go `strings.Split(s, "\n")` (splitting the empty string
yields the one-element list of the empty string). -/
def splitNl : List Char → List (List Char)
  | [] => [[]]
  | c :: rest =>
    if c = '\n' then [] :: splitNl rest
    else
      match splitNl rest with
      | [] => [[c]]
      | l :: ls => (c :: l) :: ls

/-- The line-splitting step of `Compile` (src/main.go:162-163):
`strings.Split(stderrContent, "\n")`. -/
def stderrLinesOf (stderrContent : String) : List String :=
  (splitNl stderrContent.toList).map String.mk

/-- The filtering loop of `Compile` (src/main.go:165-170): keep, in
order, the stderr lines containing the substring `cannot convert`. -/
def conversionErrsOf (stderrContent : String) : List String :=
  (stderrLinesOf stderrContent).filter fun l => strContains l "cannot convert"

/-- Outcome of the extraction loop of `Compile` (src/main.go:172-182).
`panicked` models the Go runtime panic raised by `matches[1]` when
`FindStringSubmatch` returned `nil` (indexing a nil slice is an
out-of-range access, not an error return); `ok` carries the accumulated
`ConversionFailures`. -/
inductive ExtractResult where
  | panicked
  | ok (cfs : ConversionFailures)
deriving DecidableEq, Repr

/-- The extraction loop of `Compile` (src/main.go:172-182): for each
retained line in order, run `FindStringSubmatch`; on a `nil` result the
accesses `matches[1]`/`matches[2]` panic, otherwise append
`{From: matches[1], To: matches[2]}` to `cfs`. -/
def extractLoop : List String → ConversionFailures → ExtractResult
  | [], cfs => .ok cfs
  | l :: rest, cfs =>
    match findStringSubmatch l with
    | none => .panicked
    | some (f, t) => extractLoop rest (cfs ++ [⟨f, t⟩])

/-- The whole stderr-scraping half of `Compile` (src/main.go:162-184):
split, filter for the marker, extract each pair. -/
def extractFailures (stderrContent : String) : ExtractResult :=
  extractLoop (conversionErrsOf stderrContent) []

/-- Outcome of `Compile` (src/main.go:144-185): an error return
(src/main.go:159), the runtime panic of the extraction loop, or the
returned `ConversionFailures`. -/
inductive CompileResult where
  | error (msg : String)
  | panicked
  | ok (cfs : ConversionFailures)
deriving DecidableEq, Repr

/-- Whether a `CompileResult` is the error return. -/
def CompileResult.isError : CompileResult → Bool
  | .error _ => true
  | _ => false

/-- Embed an extraction outcome into a `CompileResult`. -/
def liftExtract : ExtractResult → CompileResult
  | .panicked => .panicked
  | .ok cfs => .ok cfs

/-- `Compile` (src/main.go:144-185), with the two effects of
`cmd.Run()` passed explicitly: `runError` is `none` when `cmd.Run`
returned a nil error (the build exited 0) and `some msg` when it
returned an error with `err.Error() = msg` (for an exit with status `n`
this is `"exit status n"`; for a launch failure it is the launch error
text); `stderrContent` is the captured stderr.  The gate
(src/main.go:156-160) returns an error iff the run error is non-nil and
its text differs from `"exit status 2"`; otherwise the stderr is
scraped. -/
def Compile (runError : Option String) (stderrContent : String) : CompileResult :=
  match runError with
  | some msg =>
    if msg != "exit status 2" then
      .error ("unexpected error while running compilation command: " ++ msg)
    else liftExtract (extractFailures stderrContent)
  | none => liftExtract (extractFailures stderrContent)

/-- Modelled from the spec: the template file `template/conversions.tmpl`
is not under src/.  Per §4.1, for every ordered pair `(f, t)` of the
catalog's self-product the synthesized program contains one statement
declaring a variable of type `f` and converting it to type `t`,
discarding the result; iteration order and formatting are stable, so the
rendering is a function of the catalog alone. -/
def renderTemplate (primitives : List String) : String :=
  "package main\n\nfunc main() \x7b\n"
    ++ String.join
      ((primitives.map fun f =>
        String.join (primitives.map fun t =>
          "\t\x7b var x " ++ f ++ "; _ = " ++ t ++ "(x) \x7d\n")))
    ++ "\x7d\n"

/-- `Generate` (src/main.go:111-139), with its effects made explicit: it
fills `Data{Now, App, Primitives}` (src/main.go:128-131) — `now` is
`time.Now().Format(time.RFC3339)` and `app` is `os.Args[0]` — and
returns the text that `t.Execute` writes to the output file.  The
template itself is spec-modelled (`renderTemplate`), and per §4.1 it
references only the catalog, so `now` and `app` do not reach the
output. -/
def Generate (_now _app : String) (primitives : List String) : String :=
  renderTemplate primitives

/-- Whether a report record is a result line (as opposed to a section
header). -/
def ReportEvent.isResult : ReportEvent → Bool
  | .result _ _ _ => true
  | .header _ => false

/-- Every result record in the list carries the convertible marker. -/
def allConvertible (evs : List ReportEvent) : Bool :=
  evs.all fun e =>
    match e with
    | .result _ _ m => m == "✅"
    | .header _ => true

/-- Number of result records in a report. -/
def resultCount (evs : List ReportEvent) : Nat :=
  (evs.filter ReportEvent.isResult).length

/-- The pair the extraction loop of `Compile` builds from one retained
line (src/main.go:175-180), on the assumption that the line matches; the
default is never reached when `findStringSubmatch` succeeds. -/
def extractedPair (l : String) : ConversionFailure :=
  match findStringSubmatch l with
  | some (f, t) => ⟨f, t⟩
  | none => ⟨"", ""⟩

/-! Helper lemmas. -/

theorem contains_eq_true_iff : ∀ (cfs : ConversionFailures) (f t : String),
    cfs.Contains f t = true ↔ (⟨f, t⟩ : ConversionFailure) ∈ cfs
  | [], f, t => by simp [ConversionFailures.Contains]
  | ⟨cfF, cfT⟩ :: rest, f, t => by
    rw [ConversionFailures.Contains]
    by_cases h : (cfF == f && cfT == t) = true
    · rw [if_pos h]
      simp only [Bool.and_eq_true, beq_iff_eq] at h
      simp [h.1, h.2]
    · rw [if_neg h]
      rw [contains_eq_true_iff rest f t]
      simp only [Bool.and_eq_true, beq_iff_eq] at h
      simp only [List.mem_cons, ConversionFailure.mk.injEq]
      constructor
      · exact Or.inr
      · rintro (⟨h1, h2⟩ | hm)
        · exact absurd (⟨h1.symm, h2.symm⟩ : cfF = f ∧ cfT = t) h
        · exact hm

theorem mk_mem_iff_exists (cfs : ConversionFailures) (f t : String) :
    (⟨f, t⟩ : ConversionFailure) ∈ cfs ↔ ∃ cf ∈ cfs, cf.From = f ∧ cf.To = t := by
  constructor
  · intro h
    exact ⟨⟨f, t⟩, h, rfl, rfl⟩
  · rintro ⟨⟨cfF, cfT⟩, hm, h1, h2⟩
    cases h1
    cases h2
    exact hm

theorem foldl_append_map {α β : Type} (f : α → β) :
    ∀ (l : List α) (acc : List β),
      l.foldl (fun a x => a ++ [f x]) acc = acc ++ l.map f
  | [], acc => by simp
  | x :: l, acc => by
    simp only [List.foldl_cons, List.map_cons]
    rw [foldl_append_map f l (acc ++ [f x])]
    simp

theorem foldl_append_bind {α β : Type} (g : α → List β) :
    ∀ (l : List α) (acc : List β),
      l.foldl (fun a x => a ++ g x) acc = acc ++ l.flatMap g
  | [], acc => by simp
  | x :: l, acc => by
    simp only [List.foldl_cons, List.flatMap_cons]
    rw [foldl_append_bind g l (acc ++ g x)]
    simp

theorem report_structure (cfs : ConversionFailures) :
    Report cfs = Primitives.flatMap fun o =>
      ReportEvent.header o ::
        Primitives.map fun i => ReportEvent.result o i (marker cfs o i) := by
  have hinner : ∀ o acc, reportInner cfs o acc
      = acc ++ Primitives.map fun i => ReportEvent.result o i (marker cfs o i) :=
    fun o acc => foldl_append_map _ _ _
  unfold Report
  have hfun : (fun a o => reportInner cfs o (a ++ [ReportEvent.header o]))
      = fun (a : List ReportEvent) o =>
          a ++ (ReportEvent.header o ::
            Primitives.map fun i => ReportEvent.result o i (marker cfs o i)) := by
    funext a o
    rw [hinner]
    simp
  rw [hfun, foldl_append_bind]
  simp

theorem result_mem_report_iff (cfs : ConversionFailures) (f t m : String) :
    ReportEvent.result f t m ∈ Report cfs
      ↔ f ∈ Primitives ∧ t ∈ Primitives ∧ m = marker cfs f t := by
  rw [report_structure]
  simp only [List.mem_flatMap, List.mem_cons, List.mem_map]
  constructor
  · rintro ⟨o, ho, hcase | ⟨i, hi, heq⟩⟩
    · cases hcase
    · injection heq with h1 h2 h3
      subst h1
      subst h2
      subst h3
      exact ⟨ho, hi, rfl⟩
  · rintro ⟨hf, ht, rfl⟩
    exact ⟨f, hf, Or.inr ⟨t, ht, rfl⟩⟩

theorem extractLoop_all_matching (ls : List String) :
    ∀ (acc : ConversionFailures),
      (∀ l ∈ ls, (findStringSubmatch l).isSome = true) →
      extractLoop ls acc = .ok (acc ++ ls.map extractedPair) := by
  induction ls with
  | nil => intro acc _; simp [extractLoop]
  | cons l ls ih =>
    intro acc h
    have hl := h l (List.mem_cons_self l ls)
    cases hfs : findStringSubmatch l with
    | none => rw [hfs] at hl; simp at hl
    | some p =>
      obtain ⟨f, t⟩ := p
      simp only [extractLoop, hfs]
      refine (ih (acc ++ [⟨f, t⟩]) fun x hx => h x (List.mem_cons_of_mem l hx)).trans ?_
      simp [extractedPair, hfs]

theorem extractLoop_panics_on_nil (ls : List String) :
    ∀ (acc : ConversionFailures),
      (∃ l ∈ ls, findStringSubmatch l = none) →
      extractLoop ls acc = .panicked := by
  induction ls with
  | nil => intro _ h; simp at h
  | cons l ls ih =>
    intro acc h
    cases hfs : findStringSubmatch l with
    | none => simp only [extractLoop, hfs]
    | some p =>
      obtain ⟨f, t⟩ := p
      simp only [extractLoop, hfs]
      apply ih
      rcases h with ⟨l', hl', hnone⟩
      rcases List.mem_cons.mp hl' with rfl | hmem
      · rw [hfs] at hnone; cases hnone
      · exact ⟨l', hmem, hnone⟩

theorem marker_eq_cross_iff (cfs : ConversionFailures) (f t : String) :
    marker cfs f t = "❌" ↔ cfs.Contains f t = true := by
  cases h : cfs.Contains f t <;> simp [marker, h]

theorem marker_eq_check_iff (cfs : ConversionFailures) (f t : String) :
    marker cfs f t = "✅" ↔ cfs.Contains f t = false := by
  cases h : cfs.Contains f t <;> simp [marker, h]

/-! The claims. -/

/-- C1: For every failure set `cfs` and every ordered pair `(f, t)` of
catalog type names, `Report` marks the pair convertible (✅) iff `cfs`
contains no element whose `From` field equals `f` and whose `To` field
equals `t`, both compared by exact string equality; `Contains` is the
membership test implementing this. -/
theorem report_marker_iff_absent (cfs : ConversionFailures) (f t : String) :
    (cfs.Contains f t = true ↔ ∃ cf ∈ cfs, cf.From = f ∧ cf.To = t)
    ∧ (f ∈ Primitives → t ∈ Primitives →
        (ReportEvent.result f t "✅" ∈ Report cfs
          ↔ ¬ ∃ cf ∈ cfs, cf.From = f ∧ cf.To = t)) := by
  have hmem := (contains_eq_true_iff cfs f t).trans (mk_mem_iff_exists cfs f t)
  refine ⟨hmem, fun hf ht => ?_⟩
  rw [result_mem_report_iff]
  constructor
  · rintro ⟨_, _, hm⟩ hex
    have hct : cfs.Contains f t = true := hmem.mpr hex
    have hmk : marker cfs f t = "❌" := (marker_eq_cross_iff cfs f t).mpr hct
    rw [hmk] at hm
    exact absurd hm (by decide)
  · intro hex
    have hc : cfs.Contains f t = false := by
      cases hcc : cfs.Contains f t
      · rfl
      · exact absurd (hmem.mp hcc) hex
    exact ⟨hf, ht, ((marker_eq_check_iff cfs f t).mpr hc).symm⟩

/-- Witness for C1 at the empty failure set and the pair
`("bool", "int")`. -/
theorem report_marker_iff_absent_witness :
    "bool" ∈ Primitives ∧ "int" ∈ Primitives ∧
      ReportEvent.result "bool" "int" "✅" ∈ Report [] :=
  ⟨by decide, by decide,
    ((report_marker_iff_absent [] "bool" "int").2 (by decide) (by decide)).mpr
      (by simp)⟩

/-- C2: For any two runs of `Generate` with the same type-name catalog
(`Primitives`), the synthesized source written to the output file is
byte-identical across the two runs (runs differ in `time.Now()` and in
`os.Args[0]`, the two other fields of the template data). -/
theorem generate_deterministic (now1 app1 now2 app2 : String) :
    Generate now1 app1 Primitives = Generate now2 app2 Primitives := rfl

/-- C3 counterexample: on a stderr whose single line contains
`cannot convert` but does not match the extraction pattern, `Compile`
ends in the runtime panic of `matches[1]` (the `panicked` outcome), not
in an error value propagated to the top of the run (`isError` is
`false`), refuting the claim that a fatal *error* is propagated. -/
theorem compile_malformed_line_no_error_value :
    Compile (some "exit status 2") "x cannot convert y" = CompileResult.panicked
    ∧ (Compile (some "exit status 2") "x cannot convert y").isError = false := by
  exact ⟨by decide, by decide⟩

/-- C3 amended: for every diagnostic stream containing a line that
includes the substring `cannot convert` but does not match the expected
extraction pattern, the run aborts — but via the runtime panic of
indexing the nil `FindStringSubmatch` result, not via an error value
propagated to the top of the run. -/
theorem compile_malformed_line_panics (stderr : String)
    (h : ∃ l ∈ conversionErrsOf stderr, findStringSubmatch l = none) :
    Compile (some "exit status 2") stderr = CompileResult.panicked := by
  have hp : extractFailures stderr = .panicked :=
    extractLoop_panics_on_nil (conversionErrsOf stderr) [] h
  simp [Compile, extractFailures, liftExtract] at hp ⊢
  simp [hp]

/-- Witness for the amended C3 at a concrete malformed stderr. -/
theorem compile_malformed_line_panics_witness :
    (∃ l ∈ conversionErrsOf "w cannot convert z", findStringSubmatch l = none)
    ∧ Compile (some "exit status 2") "w cannot convert z"
        = CompileResult.panicked :=
  ⟨by decide, compile_malformed_line_panics "w cannot convert z" (by decide)⟩

/-- C4: for every diagnostic stream all of whose `cannot convert` lines
match the extraction pattern, `Compile` returns a failure set with
exactly one entry extracted from each such line, in order and with no
entries dropped and no duplicates collapsed (the set is the `map` of the
per-line extraction over the retained lines, so its length is the number
of retained lines), and the report marks a pair not-convertible exactly
when it is one of the extracted pairs. -/
theorem compile_failure_set_complete (stderr : String)
    (h : ∀ l ∈ conversionErrsOf stderr, (findStringSubmatch l).isSome = true) :
    Compile (some "exit status 2") stderr
        = CompileResult.ok ((conversionErrsOf stderr).map extractedPair)
    ∧ ((conversionErrsOf stderr).map extractedPair).length
        = (conversionErrsOf stderr).length
    ∧ (∀ f t : String,
        marker ((conversionErrsOf stderr).map extractedPair) f t = "❌"
          ↔ (⟨f, t⟩ : ConversionFailure)
              ∈ (conversionErrsOf stderr).map extractedPair) := by
  have hex : extractFailures stderr
      = .ok ((conversionErrsOf stderr).map extractedPair) := by
    have := extractLoop_all_matching (conversionErrsOf stderr) [] h
    simpa [extractFailures] using this
  refine ⟨?_, by simp, ?_⟩
  · simp [Compile, liftExtract, hex]
  · intro f t
    rw [marker_eq_cross_iff, contains_eq_true_iff]

/-- Witness for C4 at a stderr with exactly two matching lines. -/
theorem compile_failure_set_complete_witness :
    (∀ l ∈ conversionErrsOf
        "e: cannot convert p.a (v) to type b\ne: cannot convert p.c (w) to type d",
        (findStringSubmatch l).isSome = true)
    ∧ Compile (some "exit status 2")
        "e: cannot convert p.a (v) to type b\ne: cannot convert p.c (w) to type d"
      = CompileResult.ok
          ((conversionErrsOf
            "e: cannot convert p.a (v) to type b\ne: cannot convert p.c (w) to type d").map
            extractedPair) :=
  ⟨by decide,
    (compile_failure_set_complete
      "e: cannot convert p.a (v) to type b\ne: cannot convert p.c (w) to type d"
      (by decide)).1⟩

/-- C5: `Compile` treats the run error `exit status 2` as its success
path and proceeds to extraction; any other run error (another non-zero
exit status, or a failure to launch the process, both surfacing as a
non-nil `cmd.Run` error with a different text) makes `Compile` return an
error rather than a failure set. -/
theorem compile_exit_status_gate (stderr msg : String)
    (h : msg ≠ "exit status 2") :
    Compile (some "exit status 2") stderr = liftExtract (extractFailures stderr)
    ∧ Compile (some msg) stderr
        = CompileResult.error
            ("unexpected error while running compilation command: " ++ msg) := by
  constructor
  · simp [Compile]
  · have hb : (msg != "exit status 2") = true := by simpa [bne_iff_ne] using h
    simp [Compile, hb]

/-- Witness for C5 at `exit status 1` (an unexpected exit status). -/
theorem compile_exit_status_gate_witness :
    "exit status 1" ≠ "exit status 2"
    ∧ Compile (some "exit status 1") ""
        = CompileResult.error
            ("unexpected error while running compilation command: "
              ++ "exit status 1") :=
  ⟨by decide, (compile_exit_status_gate "" "exit status 1" (by decide)).2⟩

/-- C6: for every type name `a` in the catalog the reported verdict for
the self-pair `(a, a)` is convertible, for every failure set containing
no self-pair — the hypothesis encodes the documented compiler behavior
that no `cannot convert` diagnostic is ever raised for an identity
conversion, with no special-casing in the extractor or reporter. -/
theorem report_self_pairs_convertible (cfs : ConversionFailures)
    (hno : ∀ cf ∈ cfs, cf.From ≠ cf.To) :
    ∀ a ∈ Primitives,
      marker cfs a a = "✅" ∧ ReportEvent.result a a "✅" ∈ Report cfs := by
  intro a ha
  have hc : cfs.Contains a a = false := by
    cases hcc : cfs.Contains a a
    · rfl
    · obtain ⟨cf, hm, h1, h2⟩ :=
        (mk_mem_iff_exists cfs a a).mp ((contains_eq_true_iff cfs a a).mp hcc)
      exact absurd (h1.trans h2.symm) (hno cf hm)
  have hmk : marker cfs a a = "✅" := (marker_eq_check_iff cfs a a).mpr hc
  exact ⟨hmk, (result_mem_report_iff cfs a a "✅").mpr ⟨ha, ha, hmk.symm⟩⟩

/-- Witness for C6 at a nonempty failure set without self-pairs and the
catalog entry `"bool"`. -/
theorem report_self_pairs_convertible_witness :
    (∀ cf ∈ ([⟨"int", "bool"⟩] : ConversionFailures), cf.From ≠ cf.To)
    ∧ "bool" ∈ Primitives
    ∧ marker [⟨"int", "bool"⟩] "bool" "bool" = "✅"
    ∧ ReportEvent.result "bool" "bool" "✅" ∈ Report [⟨"int", "bool"⟩] :=
  ⟨by decide, by decide,
    (report_self_pairs_convertible [⟨"int", "bool"⟩] (by decide) "bool"
      (by decide)).1,
    (report_self_pairs_convertible [⟨"int", "bool"⟩] (by decide) "bool"
      (by decide)).2⟩

/-- C7: for every diagnostic stream with zero `cannot convert` lines the
failure set built by `Compile` is empty, and in the report built from
the empty failure set every one of the 19 × 19 = 361 result lines
carries the convertible marker. -/
theorem compile_no_marker_all_convertible (stderr : String)
    (h : ∀ l ∈ stderrLinesOf stderr, strContains l "cannot convert" = false) :
    Compile (some "exit status 2") stderr = CompileResult.ok []
    ∧ allConvertible (Report []) = true
    ∧ resultCount (Report []) = 361 := by
  have hml : conversionErrsOf stderr = [] := by
    rw [conversionErrsOf, List.filter_eq_nil_iff]
    intro a ha
    simp [h a ha]
  refine ⟨?_, by decide, by decide⟩
  simp [Compile, extractFailures, hml, extractLoop, liftExtract]

/-- Witness for C7 at a two-line stderr without the marker. -/
theorem compile_no_marker_all_convertible_witness :
    (∀ l ∈ stderrLinesOf "foo\nbar", strContains l "cannot convert" = false)
    ∧ Compile (some "exit status 2") "foo\nbar" = CompileResult.ok [] :=
  ⟨by decide, (compile_no_marker_all_convertible "foo\nbar" (by decide)).1⟩

/-- C8: `Report` emits, for each from-type in catalog order, a section
header followed by the block of the catalog's 19 result records in
catalog order, each carrying the from-type name, the to-type name and
the convertible/not-convertible marker. -/
theorem report_iteration_order (cfs : ConversionFailures) :
    Report cfs = (Primitives.flatMap fun o =>
        ReportEvent.header o ::
          Primitives.map fun i => ReportEvent.result o i (marker cfs o i))
    ∧ Primitives.length = 19
    ∧ ∀ o : String,
        (Primitives.map fun i => ReportEvent.result o i (marker cfs o i)).length
          = 19 := by
  refine ⟨report_structure cfs, by decide, fun o => ?_⟩
  rw [List.length_map]
  decide

/-- C9: a captured stderr line can contain the substring
`cannot convert` yet not be matched by the extraction pattern; on such a
line `FindStringSubmatch` returns `nil` and the `matches[1]` access in
`Compile` (src/main.go:176) is an out-of-bounds access on the nil slice
— modelled by the `panicked` outcome — and not a returned error value. -/
theorem extraction_nil_submatch_is_runtime_panic :
    strContains "abc cannot convert xyz" "cannot convert" = true
    ∧ findStringSubmatch "abc cannot convert xyz" = none
    ∧ extractFailures "first line\nabc cannot convert xyz"
        = ExtractResult.panicked
    ∧ Compile (some "exit status 2") "first line\nabc cannot convert xyz"
        = CompileResult.panicked
    ∧ (Compile (some "exit status 2") "first line\nabc cannot convert xyz").isError
        = false :=
  ⟨by decide, by decide, by decide, by decide, by decide⟩

/-- C10: when `cmd.Run` returns no error (the build exited 0), `Compile`
does not return an error: it proceeds along the success path and returns
the failure set parsed from the captured stderr; with the empty stderr
this failure set is empty, and the report built from the empty failure
set marks every pair convertible. -/
theorem compile_exit_zero_success_path (stderr : String) :
    (Compile none stderr).isError = false
    ∧ Compile none stderr = liftExtract (extractFailures stderr)
    ∧ Compile none "" = CompileResult.ok []
    ∧ allConvertible (Report []) = true := by
  refine ⟨?_, rfl, by decide, by decide⟩
  cases hx : extractFailures stderr with
  | panicked => simp [Compile, liftExtract, hx, CompileResult.isError]
  | ok cfs => simp [Compile, liftExtract, hx, CompileResult.isError]

end GoConversions
